import Mathlib

/-!
Verification development for the tournament simulator
(`clean_tournament_sim.py`).  The Python source is shallowly embedded:
pure computations become Lean functions over `Nat`, `Int` and `Rat`
(Python floats are modelled by exact rationals), the pandas dataframe of
ledger rows becomes a `List` of structures, and the random draws consumed
by the simulation become explicit arguments.
-/

namespace EventSim

/-! ## Ranked-points ledger (`NAStandingsManager`) -/

/-- One row of the NA standings dataframe: the two alternate name columns,
the parsed `CP Finishes` list, the `Locals CP` flat bonus and the two
derived totals `Top_X_CP` and `Total_CP`. -/
structure LedgerRow where
  naName : String
  topXName : String
  cpFinishes : List Int
  localsCP : Int
  topXCP : Int
  totalCP : Int
deriving Repr, DecidableEq

/-- `current_finishes.sort(reverse=True)`: sort a finishes list in
descending order. -/
def sortFinishesDesc (l : List Int) : List Int :=
  l.insertionSort (fun a b => b ≤ a)

/-- The 5-finish rule applied to a finishes list
(`update_player_finishes`, lines 134-149): with fewer than 5 finishes the
new value is appended; with 5 (or more) finishes the minimum is compared
to the new value and replaced by it exactly when the new value is
strictly greater; otherwise the update is rejected (`none`). -/
def updateFinishes (finishes : List Int) (newPoints : Int) : Option (List Int) :=
  if finishes.length < 5 then
    some (sortFinishesDesc (finishes ++ [newPoints]))
  else
    match finishes.min? with
    | none => none
    | some minFinish =>
      if minFinish < newPoints then
        some (sortFinishesDesc ((finishes.erase minFinish) ++ [newPoints]))
      else
        none

/-- Rewrite one ledger row after a successful finishes update
(`update_player_finishes`, lines 151-162): store the new finishes,
recompute `Top_X_CP` as their sum and `Total_CP` as that sum plus the
row's `Locals CP`. -/
def applyFinish (row : LedgerRow) (newPoints : Int) : Option LedgerRow :=
  match updateFinishes row.cpFinishes newPoints with
  | none => none
  | some fs =>
    some { row with cpFinishes := fs, topXCP := fs.sum, totalCP := fs.sum + row.localsCP }

/-- Python's `str.lower()` on name fields, embedded as a character-wise
lowercase map over the string's characters. -/
def lowerName (s : String) : String :=
  String.mk (s.data.map Char.toLower)

/-- The case-insensitive two-column name match used to locate a player
row (`update_player_finishes`, lines 121-122). -/
def nameMatches (playerName : String) (row : LedgerRow) : Bool :=
  lowerName row.naName == lowerName playerName
    || lowerName row.topXName == lowerName playerName

/-- `NAStandingsManager.update_player_finishes`: locate the first row
matching `playerName` on either name column (`mask.idxmax()`), apply the
5-finish rule to it and return the updated standings together with the
boolean change report.  A missing player or a rejected update leaves the
standings untouched and reports `false`. -/
def update_player_finishes (standings : List LedgerRow) (playerName : String)
    (newPoints : Int) : List LedgerRow × Bool :=
  match standings with
  | [] => ([], false)
  | row :: rest =>
    if nameMatches playerName row then
      match applyFinish row newPoints with
      | some row2 => (row2 :: rest, true)
      | none => (row :: rest, false)
    else
      let res := update_player_finishes rest playerName newPoints
      (row :: res.1, res.2)

/-- The championship points dictionary `real_points` built in
`NAStandingsManager.__init__` (explicit entries for places 1-64 and
the programmatic ranges 65-128, 129-256, 257-512, 513-1024); a placement
outside the listed keys has no entry. -/
def real_points (placement : Nat) : Option Nat :=
  if placement = 1 then some 500
  else if placement = 2 then some 480
  else if 3 ≤ placement ∧ placement ≤ 4 then some 420
  else if 5 ≤ placement ∧ placement ≤ 8 then some 380
  else if 9 ≤ placement ∧ placement ≤ 16 then some 300
  else if 17 ≤ placement ∧ placement ≤ 32 then some 200
  else if 33 ≤ placement ∧ placement ≤ 64 then some 150
  else if 65 ≤ placement ∧ placement ≤ 128 then some 120
  else if 129 ≤ placement ∧ placement ≤ 256 then some 100
  else if 257 ≤ placement ∧ placement ≤ 512 then some 80
  else if 513 ≤ placement ∧ placement ≤ 1024 then some 40
  else none

/-- `NAStandingsManager.get_championship_points`: dictionary lookup in
`points_table` (a copy of `real_points`) returning `None` when the
placement has no entry. -/
def get_championship_points (placement : Nat) : Option Nat :=
  real_points placement

/-! ## Skill model and match outcome (`TournamentSimulator`) -/

/-- `TournamentSimulator.calculate_skill_level`: the piecewise rating to
skill curve (lines 327-345), with Python float constants rendered as
exact rationals. -/
def calculate_skill_level (cp : Nat) : ℚ :=
  if cp ≤ 331 then
    1/5 + (1/10) * ((cp : ℚ) / 331) ^ 10
  else if cp ≤ 500 then
    3/10 + (1/5) * (((cp : ℚ) - 332) / 168)
  else if cp ≤ 800 then
    1/2 + (3/10) * (((cp : ℚ) - 501) / 299)
  else
    7/10 + (1/5) * min (((cp : ℚ) - 801) / 1000) 1

/-- The brutal-matchup penalty block of `simulate_match` (lines 354-369):
when one rating is at most 331 and the other is at least 500 the low
side's skill is multiplied by `0.25` and the brutal flag is raised;
otherwise both skills pass through unchanged with the flag down. -/
def brutalAdjust (p1_cp p2_cp : Nat) (p1_skill p2_skill : ℚ) : ℚ × ℚ × Bool :=
  if p1_cp ≤ 331 ∧ 500 ≤ p2_cp then
    (p1_skill * (1/4), p2_skill, true)
  else if p2_cp ≤ 331 ∧ 500 ≤ p1_cp then
    (p1_skill, p2_skill * (1/4), true)
  else
    (p1_skill, p2_skill, false)

/-- Player 1's clamped win probability in `simulate_match`
(lines 371-376): `0.5` plus the difference of the penalty-adjusted
skills, clamped to `[0.001, 0.999]`. -/
def p1_win_prob (p1_cp p2_cp : Nat) : ℚ :=
  let s := brutalAdjust p1_cp p2_cp (calculate_skill_level p1_cp) (calculate_skill_level p2_cp)
  max (1/1000) (min (999/1000) (1/2 + (s.1 - s.2.1)))

/-- Whether `simulate_match` flags the pairing as a brutal matchup. -/
def match_is_brutal (p1_cp p2_cp : Nat) : Bool :=
  (brutalAdjust p1_cp p2_cp (calculate_skill_level p1_cp) (calculate_skill_level p2_cp)).2.2

/-- The three outcomes `simulate_match` can return. -/
inductive MatchOutcome where
  | player1_wins
  | player2_wins
  | tie
deriving Repr, DecidableEq

/-- `TournamentSimulator.simulate_match` (lines 380-387) with the single
uniform draw `random.random()` made explicit: the draw is compared to the
tie rate `0.15` first, then to `0.15 + p1_win_prob * 0.85`. -/
def simulate_match (p1_cp p2_cp : Nat) (u : ℚ) : MatchOutcome × Bool :=
  if u < 3/20 then
    (MatchOutcome.tie, match_is_brutal p1_cp p2_cp)
  else if u < 3/20 + p1_win_prob p1_cp p2_cp * (17/20) then
    (MatchOutcome.player1_wins, match_is_brutal p1_cp p2_cp)
  else
    (MatchOutcome.player2_wins, match_is_brutal p1_cp p2_cp)

/-- The seed computation at the top of `run_tournament` (line 623):
`int(datetime.now().timestamp()) % 1000000`, a function of the wall-clock
timestamp at the moment of the call (there is no seed parameter). -/
def tournament_seed (timestamp : Int) : Int :=
  timestamp % 1000000

/-! ## Swiss pairing engine (`generate_swiss_pairings`)

The engine is embedded over the data it actually consumes: the active
players grouped into point brackets (highest points first, each bracket
already in the shuffled order produced by `sample(frac=1.0)`) and the
prior-opponent relation `opponents_played`.  Player ids are natural
numbers. -/

/-- One entry of the pairing list: a match between two player ids or a
`'BYE'` entry. -/
inductive Pairing where
  | vs : Nat → Nat → Pairing
  | bye : Nat → Pairing
deriving Repr, DecidableEq

/-- The player ids appearing in one pairing. -/
def Pairing.players : Pairing → List Nat
  | Pairing.vs a b => [a, b]
  | Pairing.bye a => [a]

/-- Whether a pairing is a bye. -/
def Pairing.isBye : Pairing → Bool
  | Pairing.vs _ _ => false
  | Pairing.bye _ => true

/-- All player ids appearing in a pairing list. -/
def pairingPlayers (ps : List Pairing) : List Nat :=
  ps.flatMap Pairing.players

/-- The opponent selection inside the bracket loop (lines 466-491): scan
forward for the first not-yet-paired candidate who is not a prior
opponent; if none exists, relax the no-rematch constraint and take the
first available candidate. -/
def chooseOpp (prior : Nat → Nat → Bool) (p q : Nat) (rest : List Nat) : Nat :=
  match (q :: rest).find? (fun r => !prior p r) with
  | some r => r
  | none => q

/-- The in-bracket pairing loop (lines 456-497) over the still-unpaired
players of one bracket in shuffled order: repeatedly pair the first
unpaired player with `chooseOpp`; a single final player with no available
candidate is left over for the cross-bracket phase. -/
def pairBracket (prior : Nat → Nat → Bool) : List Nat → List (Nat × Nat) × Option Nat
  | [] => ([], none)
  | [p] => ([], some p)
  | p :: q :: rest =>
    let opp := chooseOpp prior p q rest
    let res := pairBracket prior ((q :: rest).erase opp)
    ((p, opp) :: res.1, res.2)
termination_by l => l.length
decreasing_by
  simp only [List.length_cons]
  have h := List.length_erase_le (chooseOpp prior p q rest) (q :: rest)
  simp only [List.length_cons] at h
  omega

/-- The leftover phase (lines 499-511): pair the unpaired players
sequentially two at a time; an odd last player receives a bye. -/
def pairLeftovers : List Nat → List Pairing
  | [] => []
  | [p] => [Pairing.bye p]
  | p :: q :: rest => Pairing.vs p q :: pairLeftovers rest

/-- `TournamentSimulator.generate_swiss_pairings`: pair each point
bracket in order, then feed every bracket's leftover player into the
cross-bracket leftover phase. -/
def generate_swiss_pairings (prior : Nat → Nat → Bool)
    (brackets : List (List Nat)) : List Pairing :=
  let results := brackets.map (pairBracket prior)
  (results.flatMap (fun r => r.1.map (fun pr => Pairing.vs pr.1 pr.2)))
    ++ pairLeftovers (results.filterMap Prod.snd)

/-! ## Round accounting (`simulate_round`) -/

/-- The per-player tournament counters mutated by `simulate_round`. -/
structure PState where
  matchPoints : Nat
  wins : Nat
  losses : Nat
  ties : Nat
deriving Repr, DecidableEq

/-- A win (and equally a bye, lines 533-545): `match_points += 3`,
`wins += 1`. -/
def applyWin (s : PState) : PState :=
  { s with matchPoints := s.matchPoints + 3, wins := s.wins + 1 }

/-- A loss: `losses += 1`, no match points. -/
def applyLoss (s : PState) : PState :=
  { s with losses := s.losses + 1 }

/-- A tie (lines 596-600): `match_points += 1`, `ties += 1`. -/
def applyTie (s : PState) : PState :=
  { s with matchPoints := s.matchPoints + 1, ties := s.ties + 1 }

/-- Update the state of one player id. -/
def updateAt (st : Nat → PState) (i : Nat) (f : PState → PState) : Nat → PState :=
  fun j => if j = i then f (st j) else st j

/-- Apply one resolved pairing to the player states, following the
result branches of `simulate_round` (lines 531-609): a bye is recorded
as a win for its player; a decided match gives the winner a win and the
loser a loss; a tie gives both players a tie. -/
def applyPairingResult (st : Nat → PState) : Pairing × MatchOutcome → Nat → PState
  | (Pairing.bye p, _) => updateAt st p applyWin
  | (Pairing.vs p1 p2, MatchOutcome.player1_wins) =>
    updateAt (updateAt st p1 applyWin) p2 applyLoss
  | (Pairing.vs p1 p2, MatchOutcome.player2_wins) =>
    updateAt (updateAt st p2 applyWin) p1 applyLoss
  | (Pairing.vs p1 p2, MatchOutcome.tie) =>
    updateAt (updateAt st p1 applyTie) p2 applyTie

/-- `simulate_round`: fold one round's resolved pairings over the player
states. -/
def simulate_round (st : Nat → PState) (events : List (Pairing × MatchOutcome)) :
    Nat → PState :=
  events.foldl applyPairingResult st

/-- A sequence of rounds, as run by `run_tournament`. -/
def runRounds (st : Nat → PState) (rounds : List (List (Pairing × MatchOutcome))) :
    Nat → PState :=
  rounds.foldl simulate_round st

/-- The initial per-player state created by `load_players`: all counters
zero. -/
def initState : Nat → PState :=
  fun _ => ⟨0, 0, 0, 0⟩

/-! ## Finalization (`run_tournament`, lines 646-670) -/

/-- The per-player fields consumed by the final placement assignment. -/
structure TPlayer where
  pid : Nat
  matchPoints : Nat
  wins : Nat
  isActive : Bool
deriving Repr, DecidableEq

/-- The sort key of `sort_values(['match_points', 'wins'],
ascending=[False, False])`: `a` may precede `b` when it has more match
points, or equal match points and at least as many wins. -/
def rankRel (a b : TPlayer) : Prop :=
  b.matchPoints < a.matchPoints ∨ (a.matchPoints = b.matchPoints ∧ b.wins ≤ a.wins)

instance : DecidableRel rankRel := fun a b => by
  unfold rankRel; exact inferInstance

instance : IsTotal TPlayer rankRel := by
  constructor; intro a b; unfold rankRel; omega

instance : IsTrans TPlayer rankRel := by
  constructor; intro a b c; unfold rankRel; omega

/-- Sort a standings slice by match points descending, then wins
descending. -/
def sortByStanding (l : List TPlayer) : List TPlayer :=
  l.insertionSort rankRel

/-- `final`: the still-active players in standings order. -/
def day2Standings (players : List TPlayer) : List TPlayer :=
  sortByStanding (players.filter (fun p => p.isActive))

/-- `non_advancing_sorted`: players below the 19-point cutoff in
standings order. -/
def nonAdvancing (players : List TPlayer) : List TPlayer :=
  sortByStanding (players.filter (fun p => decide (p.matchPoints < 19)))

/-- The final placement assignment: active players receive places
`1..M` in standings order, the non-advancing players continue with
places `M+1..N`. -/
def assignPlacements (players : List TPlayer) : List (TPlayer × Nat) :=
  ((day2Standings players ++ nonAdvancing players).enum).map (fun ip => (ip.2, ip.1 + 1))

instance : IsTotal Int (fun a b : Int => b ≤ a) :=
  ⟨fun a b => le_total b a⟩

instance : IsTrans Int (fun a b : Int => b ≤ a) :=
  ⟨fun _ _ _ h1 h2 => le_trans h2 h1⟩

/-! ## Band lemmas for the skill curve -/

lemma skill_band1 {cp : Nat} (h : cp ≤ 331) :
    calculate_skill_level cp = 1/5 + (1/10) * ((cp : ℚ) / 331) ^ 10 := by
  unfold calculate_skill_level; rw [if_pos h]

lemma skill_band2 {cp : Nat} (h1 : 332 ≤ cp) (h2 : cp ≤ 500) :
    calculate_skill_level cp = 3/10 + (1/5) * (((cp : ℚ) - 332) / 168) := by
  unfold calculate_skill_level; rw [if_neg (by omega), if_pos h2]

lemma skill_band3 {cp : Nat} (h1 : 501 ≤ cp) (h2 : cp ≤ 800) :
    calculate_skill_level cp = 1/2 + (3/10) * (((cp : ℚ) - 501) / 299) := by
  unfold calculate_skill_level; rw [if_neg (by omega), if_neg (by omega), if_pos h2]

lemma skill_band4 {cp : Nat} (h1 : 801 ≤ cp) :
    calculate_skill_level cp = 7/10 + (1/5) * min (((cp : ℚ) - 801) / 1000) 1 := by
  unfold calculate_skill_level
  rw [if_neg (by omega), if_neg (by omega), if_neg (by omega)]

lemma skill_band1_le {cp : Nat} (h : cp ≤ 331) : calculate_skill_level cp ≤ 3/10 := by
  rw [skill_band1 h]
  have hx0 : (0 : ℚ) ≤ (cp : ℚ) / 331 := by positivity
  have hx1 : (cp : ℚ) / 331 ≤ 1 := by
    rw [div_le_one (by norm_num)]
    exact_mod_cast le_trans h (by norm_num)
  have hp : ((cp : ℚ) / 331) ^ 10 ≤ 1 := pow_le_one₀ hx0 hx1
  linarith

lemma skill_band2_ge {cp : Nat} (h1 : 332 ≤ cp) (h2 : cp ≤ 500) :
    3/10 ≤ calculate_skill_level cp := by
  rw [skill_band2 h1 h2]
  have hc : (332 : ℚ) ≤ (cp : ℚ) := by exact_mod_cast h1
  linarith

lemma skill_le_half {cp : Nat} (h : cp ≤ 500) : calculate_skill_level cp ≤ 1/2 := by
  rcases le_or_lt cp 331 with h1 | h1
  · linarith [skill_band1_le h1]
  · rw [skill_band2 (by omega) h]
    have hc : (cp : ℚ) ≤ 500 := by exact_mod_cast h
    linarith

lemma skill_band3_ge {cp : Nat} (h1 : 501 ≤ cp) (h2 : cp ≤ 800) :
    1/2 ≤ calculate_skill_level cp := by
  rw [skill_band3 h1 h2]
  have hc : (501 : ℚ) ≤ (cp : ℚ) := by exact_mod_cast h1
  linarith

lemma skill_pos (cp : Nat) : 0 < calculate_skill_level cp := by
  rcases le_or_lt cp 331 with h | h
  · rw [skill_band1 h]; positivity
  · rcases le_or_lt cp 500 with h2 | h2
    · linarith [skill_band2_ge (by omega) h2]
    · rcases le_or_lt cp 800 with h3 | h3
      · linarith [skill_band3_ge (by omega) h3]
      · rw [skill_band4 (by omega)]
        have hc : (801 : ℚ) ≤ (cp : ℚ) := by exact_mod_cast (by omega : 801 ≤ cp)
        have hm : (0 : ℚ) ≤ min (((cp : ℚ) - 801) / 1000) 1 :=
          le_min (by linarith) (by norm_num)
        linarith

lemma skill_le_one (cp : Nat) : calculate_skill_level cp ≤ 1 := by
  rcases le_or_lt cp 331 with h | h
  · linarith [skill_band1_le h]
  · rcases le_or_lt cp 500 with h2 | h2
    · linarith [skill_le_half h2]
    · rcases le_or_lt cp 800 with h3 | h3
      · rw [skill_band3 (by omega) h3]
        have hc : (cp : ℚ) ≤ 800 := by exact_mod_cast h3
        linarith
      · rw [skill_band4 (by omega)]
        have hm : min (((cp : ℚ) - 801) / 1000) 1 ≤ 1 := min_le_right _ _
        linarith

lemma skill_mono_le800 {r1 r2 : Nat} (h12 : r1 ≤ r2) (h800 : r2 ≤ 800) :
    calculate_skill_level r1 ≤ calculate_skill_level r2 := by
  rcases le_or_lt r2 331 with hb | hb
  · rw [skill_band1 (le_trans h12 hb), skill_band1 hb]
    have hc : (r1 : ℚ) ≤ (r2 : ℚ) := by exact_mod_cast h12
    have hx0 : (0 : ℚ) ≤ (r1 : ℚ) / 331 := by positivity
    have hx : (r1 : ℚ) / 331 ≤ (r2 : ℚ) / 331 := by linarith
    have hp := pow_le_pow_left₀ hx0 hx 10
    linarith
  · rcases le_or_lt r2 500 with hb2 | hb2
    · rcases le_or_lt r1 331 with ha | ha
      · exact le_trans (skill_band1_le ha) (skill_band2_ge (by omega) hb2)
      · rw [skill_band2 (by omega) (by omega), skill_band2 (by omega) hb2]
        have hc : (r1 : ℚ) ≤ (r2 : ℚ) := by exact_mod_cast h12
        linarith
    · rcases le_or_lt r1 500 with ha | ha
      · exact le_trans (skill_le_half ha) (skill_band3_ge (by omega) h800)
      · rw [skill_band3 (by omega) (by omega), skill_band3 (by omega) h800]
        have hc : (r1 : ℚ) ≤ (r2 : ℚ) := by exact_mod_cast h12
        linarith

lemma skill_mono_ge801 {r1 r2 : Nat} (h1 : 801 ≤ r1) (h12 : r1 ≤ r2) :
    calculate_skill_level r1 ≤ calculate_skill_level r2 := by
  rw [skill_band4 h1, skill_band4 (le_trans h1 h12)]
  have hc : (r1 : ℚ) ≤ (r2 : ℚ) := by exact_mod_cast h12
  have hm : min (((r1 : ℚ) - 801) / 1000) 1 ≤ min (((r2 : ℚ) - 801) / 1000) 1 :=
    min_le_min (by linarith) le_rfl
  linarith

/-! ## Claim theorems -/

/-- C3 (counterexample): the claimed monotonicity of
`calculate_skill_level` fails at the good/elite band boundary: rating
800 maps to skill 4/5 while rating 801 maps to skill 7/10, so the skill
value strictly decreases from 800 to 801. -/
theorem calculate_skill_level_not_monotone :
    (800 : Nat) ≤ 801 ∧ calculate_skill_level 801 < calculate_skill_level 800 := by
  constructor
  · norm_num
  · have h1 : calculate_skill_level 800 = 4/5 := by
      rw [skill_band3 (by norm_num) (by norm_num)]; norm_num
    have h2 : calculate_skill_level 801 = 7/10 := by
      rw [skill_band4 (by norm_num)]; norm_num
    rw [h1, h2]; norm_num

/-- C3 (amended): for every non-negative integer rating,
`calculate_skill_level` lies in `(0, 1]`, and it is monotonically
non-decreasing within the region of ratings up to 800 (covering the
very-low/entry and entry/good band boundaries) and within the elite band
from 801 upward; monotonicity fails only across the good/elite boundary,
where the value drops from 4/5 at rating 800 to 7/10 at rating 801. -/
theorem calculate_skill_level_range_and_mono (r : Nat) :
    (0 < calculate_skill_level r ∧ calculate_skill_level r ≤ 1)
  ∧ (∀ r2 : Nat, r ≤ r2 → r2 ≤ 800 → calculate_skill_level r ≤ calculate_skill_level r2)
  ∧ (∀ r2 : Nat, 801 ≤ r → r ≤ r2 → calculate_skill_level r ≤ calculate_skill_level r2) :=
  ⟨⟨skill_pos r, skill_le_one r⟩,
   fun _ h12 h800 => skill_mono_le800 h12 h800,
   fun _ h1 h12 => skill_mono_ge801 h1 h12⟩

/-- C3 witness: the amended statement at concrete ratings. -/
theorem calculate_skill_level_range_and_mono_witness :
    (0 < calculate_skill_level 200 ∧ calculate_skill_level 200 ≤ 1)
  ∧ ((200 : Nat) ≤ 400 ∧ (400 : Nat) ≤ 800
      ∧ calculate_skill_level 200 ≤ calculate_skill_level 400)
  ∧ ((801 : Nat) ≤ 900 ∧ (900 : Nat) ≤ 1200
      ∧ calculate_skill_level 900 ≤ calculate_skill_level 1200) :=
  ⟨(calculate_skill_level_range_and_mono 200).1,
   ⟨by norm_num, by norm_num,
    (calculate_skill_level_range_and_mono 200).2.1 400 (by norm_num) (by norm_num)⟩,
   ⟨by norm_num, by norm_num,
    (calculate_skill_level_range_and_mono 900).2.2 1200 (by norm_num) (by norm_num)⟩⟩

/-- C7: `get_championship_points` returns exactly the dyadic band values
1→500, 2→480, 3-4→420, 5-8→380, 9-16→300, 17-32→200, 33-64→150,
65-128→120, 129-256→100, 257-512→80, 513-1024→40, and `none` beyond
1024. -/
theorem get_championship_points_bands (p : Nat) :
    (p = 1 → get_championship_points p = some 500)
  ∧ (p = 2 → get_championship_points p = some 480)
  ∧ (3 ≤ p → p ≤ 4 → get_championship_points p = some 420)
  ∧ (5 ≤ p → p ≤ 8 → get_championship_points p = some 380)
  ∧ (9 ≤ p → p ≤ 16 → get_championship_points p = some 300)
  ∧ (17 ≤ p → p ≤ 32 → get_championship_points p = some 200)
  ∧ (33 ≤ p → p ≤ 64 → get_championship_points p = some 150)
  ∧ (65 ≤ p → p ≤ 128 → get_championship_points p = some 120)
  ∧ (129 ≤ p → p ≤ 256 → get_championship_points p = some 100)
  ∧ (257 ≤ p → p ≤ 512 → get_championship_points p = some 80)
  ∧ (513 ≤ p → p ≤ 1024 → get_championship_points p = some 40)
  ∧ (1024 < p → get_championship_points p = none) := by
  refine ⟨?_, ?_, ?_, ?_, ?_, ?_, ?_, ?_, ?_, ?_, ?_, ?_⟩
  · rintro rfl; rfl
  · rintro rfl; rfl
  · intro ha hb
    unfold get_championship_points real_points
    rw [if_neg (show p ≠ 1 by omega), if_neg (show p ≠ 2 by omega)]
    rw [if_pos (show 3 ≤ p ∧ p ≤ 4 by omega)]
  · intro ha hb
    unfold get_championship_points real_points
    rw [if_neg (show p ≠ 1 by omega), if_neg (show p ≠ 2 by omega)]
    rw [if_neg (show ¬(3 ≤ p ∧ p ≤ 4) by omega)]
    rw [if_pos (show 5 ≤ p ∧ p ≤ 8 by omega)]
  · intro ha hb
    unfold get_championship_points real_points
    rw [if_neg (show p ≠ 1 by omega), if_neg (show p ≠ 2 by omega)]
    rw [if_neg (show ¬(3 ≤ p ∧ p ≤ 4) by omega)]
    rw [if_neg (show ¬(5 ≤ p ∧ p ≤ 8) by omega)]
    rw [if_pos (show 9 ≤ p ∧ p ≤ 16 by omega)]
  · intro ha hb
    unfold get_championship_points real_points
    rw [if_neg (show p ≠ 1 by omega), if_neg (show p ≠ 2 by omega)]
    rw [if_neg (show ¬(3 ≤ p ∧ p ≤ 4) by omega)]
    rw [if_neg (show ¬(5 ≤ p ∧ p ≤ 8) by omega)]
    rw [if_neg (show ¬(9 ≤ p ∧ p ≤ 16) by omega)]
    rw [if_pos (show 17 ≤ p ∧ p ≤ 32 by omega)]
  · intro ha hb
    unfold get_championship_points real_points
    rw [if_neg (show p ≠ 1 by omega), if_neg (show p ≠ 2 by omega)]
    rw [if_neg (show ¬(3 ≤ p ∧ p ≤ 4) by omega)]
    rw [if_neg (show ¬(5 ≤ p ∧ p ≤ 8) by omega)]
    rw [if_neg (show ¬(9 ≤ p ∧ p ≤ 16) by omega)]
    rw [if_neg (show ¬(17 ≤ p ∧ p ≤ 32) by omega)]
    rw [if_pos (show 33 ≤ p ∧ p ≤ 64 by omega)]
  · intro ha hb
    unfold get_championship_points real_points
    rw [if_neg (show p ≠ 1 by omega), if_neg (show p ≠ 2 by omega)]
    rw [if_neg (show ¬(3 ≤ p ∧ p ≤ 4) by omega)]
    rw [if_neg (show ¬(5 ≤ p ∧ p ≤ 8) by omega)]
    rw [if_neg (show ¬(9 ≤ p ∧ p ≤ 16) by omega)]
    rw [if_neg (show ¬(17 ≤ p ∧ p ≤ 32) by omega)]
    rw [if_neg (show ¬(33 ≤ p ∧ p ≤ 64) by omega)]
    rw [if_pos (show 65 ≤ p ∧ p ≤ 128 by omega)]
  · intro ha hb
    unfold get_championship_points real_points
    rw [if_neg (show p ≠ 1 by omega), if_neg (show p ≠ 2 by omega)]
    rw [if_neg (show ¬(3 ≤ p ∧ p ≤ 4) by omega)]
    rw [if_neg (show ¬(5 ≤ p ∧ p ≤ 8) by omega)]
    rw [if_neg (show ¬(9 ≤ p ∧ p ≤ 16) by omega)]
    rw [if_neg (show ¬(17 ≤ p ∧ p ≤ 32) by omega)]
    rw [if_neg (show ¬(33 ≤ p ∧ p ≤ 64) by omega)]
    rw [if_neg (show ¬(65 ≤ p ∧ p ≤ 128) by omega)]
    rw [if_pos (show 129 ≤ p ∧ p ≤ 256 by omega)]
  · intro ha hb
    unfold get_championship_points real_points
    rw [if_neg (show p ≠ 1 by omega), if_neg (show p ≠ 2 by omega)]
    rw [if_neg (show ¬(3 ≤ p ∧ p ≤ 4) by omega)]
    rw [if_neg (show ¬(5 ≤ p ∧ p ≤ 8) by omega)]
    rw [if_neg (show ¬(9 ≤ p ∧ p ≤ 16) by omega)]
    rw [if_neg (show ¬(17 ≤ p ∧ p ≤ 32) by omega)]
    rw [if_neg (show ¬(33 ≤ p ∧ p ≤ 64) by omega)]
    rw [if_neg (show ¬(65 ≤ p ∧ p ≤ 128) by omega)]
    rw [if_neg (show ¬(129 ≤ p ∧ p ≤ 256) by omega)]
    rw [if_pos (show 257 ≤ p ∧ p ≤ 512 by omega)]
  · intro ha hb
    unfold get_championship_points real_points
    rw [if_neg (show p ≠ 1 by omega), if_neg (show p ≠ 2 by omega)]
    rw [if_neg (show ¬(3 ≤ p ∧ p ≤ 4) by omega)]
    rw [if_neg (show ¬(5 ≤ p ∧ p ≤ 8) by omega)]
    rw [if_neg (show ¬(9 ≤ p ∧ p ≤ 16) by omega)]
    rw [if_neg (show ¬(17 ≤ p ∧ p ≤ 32) by omega)]
    rw [if_neg (show ¬(33 ≤ p ∧ p ≤ 64) by omega)]
    rw [if_neg (show ¬(65 ≤ p ∧ p ≤ 128) by omega)]
    rw [if_neg (show ¬(129 ≤ p ∧ p ≤ 256) by omega)]
    rw [if_neg (show ¬(257 ≤ p ∧ p ≤ 512) by omega)]
    rw [if_pos (show 513 ≤ p ∧ p ≤ 1024 by omega)]
  · intro ha
    unfold get_championship_points real_points
    rw [if_neg (show p ≠ 1 by omega), if_neg (show p ≠ 2 by omega)]
    rw [if_neg (show ¬(3 ≤ p ∧ p ≤ 4) by omega)]
    rw [if_neg (show ¬(5 ≤ p ∧ p ≤ 8) by omega)]
    rw [if_neg (show ¬(9 ≤ p ∧ p ≤ 16) by omega)]
    rw [if_neg (show ¬(17 ≤ p ∧ p ≤ 32) by omega)]
    rw [if_neg (show ¬(33 ≤ p ∧ p ≤ 64) by omega)]
    rw [if_neg (show ¬(65 ≤ p ∧ p ≤ 128) by omega)]
    rw [if_neg (show ¬(129 ≤ p ∧ p ≤ 256) by omega)]
    rw [if_neg (show ¬(257 ≤ p ∧ p ≤ 512) by omega)]
    rw [if_neg (show ¬(513 ≤ p ∧ p ≤ 1024) by omega)]

/-- C7 witness: the spot checks named by the claim. -/
theorem get_championship_points_bands_witness :
    get_championship_points 1 = some 500
  ∧ get_championship_points 64 = some 150
  ∧ get_championship_points 65 = some 120
  ∧ get_championship_points 1024 = some 40
  ∧ get_championship_points 1025 = none :=
  ⟨(get_championship_points_bands 1).1 rfl,
   (get_championship_points_bands 64).2.2.2.2.2.2.1 (by norm_num) (by norm_num),
   (get_championship_points_bands 65).2.2.2.2.2.2.2.1 (by norm_num) (by norm_num),
   (get_championship_points_bands 1024).2.2.2.2.2.2.2.2.2.2.1 (by norm_num) (by norm_num),
   (get_championship_points_bands 1025).2.2.2.2.2.2.2.2.2.2.2 (by norm_num)⟩

/-- C9: when no row of the standings matches the requested name on either
name column (case-insensitively), `update_player_finishes` is a no-op:
it returns `false` and leaves the standings unchanged (being a total
function, it raises nothing). -/
theorem update_player_finishes_miss (standings : List LedgerRow) (playerName : String)
    (newPoints : Int) (h : ∀ row ∈ standings, nameMatches playerName row = false) :
    update_player_finishes standings playerName newPoints = (standings, false) := by
  induction standings with
  | nil => rfl
  | cons row rest ih =>
    have hrow := h row (by simp)
    have hrest : ∀ r2 ∈ rest, nameMatches playerName r2 = false :=
      fun r2 hr2 => h r2 (by simp [hr2])
    simp [update_player_finishes, hrow, ih hrest]

/-- C9 witness: an unknown name leaves a concrete standings list
untouched. -/
theorem update_player_finishes_miss_witness :
    update_player_finishes
      [⟨"Alice", "Alice A", [100], 10, 100, 110⟩, ⟨"Bob", "Bob B", [50], 0, 50, 50⟩]
      "carol" 200
    = ([⟨"Alice", "Alice A", [100], 10, 100, 110⟩, ⟨"Bob", "Bob B", [50], 0, 50, 50⟩], false) :=
  update_player_finishes_miss _ "carol" 200 (by decide)

/-- C8 (counterexample): `run_tournament` has no seed parameter; its seed
is `int(datetime.now().timestamp()) % 1000000`, a function of the
wall-clock time of the call that is also recorded in the returned result.
Two calls at timestamps 0 and 1 (all caller-visible inputs equal) use
different seeds, so randomness under a caller-fixed seed is not the only
nondeterministic input. -/
theorem tournament_seed_depends_on_time :
    tournament_seed 0 ≠ tournament_seed 1 := by
  decide

/-- C8 (amended): the seed of a tournament run is derived from the
wall-clock timestamp as `timestamp % 1000000`, not from a caller-supplied
value: any two invocation timestamps that agree modulo 1000000 yield the
same seed, and the seed always lies in `[0, 1000000)`. -/
theorem tournament_seed_spec (t1 t2 : Int) (h : t1 % 1000000 = t2 % 1000000) :
    tournament_seed t1 = tournament_seed t2
  ∧ 0 ≤ tournament_seed t1 ∧ tournament_seed t1 < 1000000 :=
  ⟨h, Int.emod_nonneg t1 (by norm_num), Int.emod_lt_of_pos t1 (by norm_num)⟩

/-- C8 witness: two concrete timestamps one million apart share a seed in
range. -/
theorem tournament_seed_spec_witness :
    ((1000123 : Int) % 1000000 = (123 : Int) % 1000000)
  ∧ (tournament_seed 1000123 = tournament_seed 123
      ∧ 0 ≤ tournament_seed 1000123 ∧ tournament_seed 1000123 < 1000000) :=
  ⟨by decide, tournament_seed_spec 1000123 123 (by decide)⟩

/-- C5: `simulate_match` raises the brutal flag exactly when one rating
is at most 331 and the other is at least 500; in that case the low
side's skill is multiplied by the fixed factor 1/4 (which lies in the
0.1-0.25 range) and strictly decreases, while the other side's skill is
untouched; the penalty is symmetric in which side is low, and in every
other case the flag is down and neither skill changes. -/
theorem brutal_matchup_spec (p1_cp p2_cp : Nat) :
    (p1_cp ≤ 331 → 500 ≤ p2_cp →
      brutalAdjust p1_cp p2_cp (calculate_skill_level p1_cp) (calculate_skill_level p2_cp)
        = (calculate_skill_level p1_cp * (1/4), calculate_skill_level p2_cp, true)
      ∧ calculate_skill_level p1_cp * (1/4) < calculate_skill_level p1_cp
      ∧ match_is_brutal p1_cp p2_cp = true)
  ∧ (p2_cp ≤ 331 → 500 ≤ p1_cp →
      brutalAdjust p1_cp p2_cp (calculate_skill_level p1_cp) (calculate_skill_level p2_cp)
        = (calculate_skill_level p1_cp, calculate_skill_level p2_cp * (1/4), true)
      ∧ calculate_skill_level p2_cp * (1/4) < calculate_skill_level p2_cp
      ∧ match_is_brutal p1_cp p2_cp = true)
  ∧ (¬ ((p1_cp ≤ 331 ∧ 500 ≤ p2_cp) ∨ (p2_cp ≤ 331 ∧ 500 ≤ p1_cp)) →
      brutalAdjust p1_cp p2_cp (calculate_skill_level p1_cp) (calculate_skill_level p2_cp)
        = (calculate_skill_level p1_cp, calculate_skill_level p2_cp, false)
      ∧ match_is_brutal p1_cp p2_cp = false)
  ∧ (1 : ℚ)/10 ≤ 1/4 ∧ (1 : ℚ)/4 ≤ 1/4 := by
  refine ⟨?_, ?_, ?_, by norm_num, le_rfl⟩
  · intro h1 h2
    have heq : brutalAdjust p1_cp p2_cp (calculate_skill_level p1_cp) (calculate_skill_level p2_cp)
        = (calculate_skill_level p1_cp * (1/4), calculate_skill_level p2_cp, true) := by
      unfold brutalAdjust; rw [if_pos ⟨h1, h2⟩]
    refine ⟨heq, ?_, by unfold match_is_brutal; rw [heq]⟩
    have := skill_pos p1_cp
    linarith
  · intro h1 h2
    have heq : brutalAdjust p1_cp p2_cp (calculate_skill_level p1_cp) (calculate_skill_level p2_cp)
        = (calculate_skill_level p1_cp, calculate_skill_level p2_cp * (1/4), true) := by
      unfold brutalAdjust; rw [if_neg (by omega), if_pos ⟨h1, h2⟩]
    refine ⟨heq, ?_, by unfold match_is_brutal; rw [heq]⟩
    have := skill_pos p2_cp
    linarith
  · intro h
    have heq : brutalAdjust p1_cp p2_cp (calculate_skill_level p1_cp) (calculate_skill_level p2_cp)
        = (calculate_skill_level p1_cp, calculate_skill_level p2_cp, false) := by
      unfold brutalAdjust; rw [if_neg (by tauto), if_neg (by tauto)]
    exact ⟨heq, by unfold match_is_brutal; rw [heq]⟩

/-- C5 witness: a concrete brutal matchup (100 vs 600) and its penalty. -/
theorem brutal_matchup_spec_witness :
    ((100 : Nat) ≤ 331 ∧ (500 : Nat) ≤ 600)
  ∧ brutalAdjust 100 600 (calculate_skill_level 100) (calculate_skill_level 600)
      = (calculate_skill_level 100 * (1/4), calculate_skill_level 600, true)
  ∧ calculate_skill_level 100 * (1/4) < calculate_skill_level 100
  ∧ match_is_brutal 100 600 = true :=
  ⟨⟨by norm_num, by norm_num⟩, (brutal_matchup_spec 100 600).1 (by norm_num) (by norm_num)⟩

/-- C4: for a uniform draw `u ∈ [0,1)`, `simulate_match` returns a tie
exactly when `u` is below the tie rate 0.15; player 1 wins exactly when
`u` lands in the following interval of length `p1_win_prob * (1 - 0.15)`;
player 2 wins on the rest; and the clamped win probability always lies in
`[0.001, 0.999]`, strictly between 0 and 1. -/
theorem simulate_match_outcome_spec (p1_cp p2_cp : Nat) (u : ℚ)
    (hu0 : 0 ≤ u) (hu1 : u < 1) :
    ((simulate_match p1_cp p2_cp u).1 = MatchOutcome.tie ↔ u < 3/20)
  ∧ ((simulate_match p1_cp p2_cp u).1 = MatchOutcome.player1_wins ↔
      3/20 ≤ u ∧ u < 3/20 + p1_win_prob p1_cp p2_cp * (1 - 3/20))
  ∧ ((simulate_match p1_cp p2_cp u).1 = MatchOutcome.player2_wins ↔
      3/20 + p1_win_prob p1_cp p2_cp * (1 - 3/20) ≤ u)
  ∧ ((simulate_match p1_cp p2_cp u).2 = match_is_brutal p1_cp p2_cp)
  ∧ 1/1000 ≤ p1_win_prob p1_cp p2_cp ∧ p1_win_prob p1_cp p2_cp ≤ 999/1000
  ∧ 0 < p1_win_prob p1_cp p2_cp ∧ p1_win_prob p1_cp p2_cp < 1 := by
  have hlo : (1 : ℚ)/1000 ≤ p1_win_prob p1_cp p2_cp := le_max_left _ _
  have hhi : p1_win_prob p1_cp p2_cp ≤ 999/1000 :=
    max_le (by norm_num) (min_le_left _ _)
  have hmass : p1_win_prob p1_cp p2_cp * (1 - 3/20)
      = p1_win_prob p1_cp p2_cp * (17/20) := by ring
  have hmnn : (0 : ℚ) ≤ p1_win_prob p1_cp p2_cp * (17/20) := by
    have : (0 : ℚ) < p1_win_prob p1_cp p2_cp := by linarith
    positivity
  unfold simulate_match
  split_ifs with ht hw
  · refine ⟨⟨fun _ => ht, fun _ => rfl⟩, ?_, ?_, rfl, hlo, hhi, by linarith, by linarith⟩
    · refine iff_of_false (by simp) ?_
      rintro ⟨hge, _⟩; linarith
    · refine iff_of_false (by simp) ?_
      rw [hmass]; intro hge; linarith
  · refine ⟨iff_of_false (by simp) (by exact fun hlt => ht hlt), ?_, ?_, rfl,
      hlo, hhi, by linarith, by linarith⟩
    · refine iff_of_true rfl ⟨by linarith, ?_⟩
      rw [hmass]; exact hw
    · refine iff_of_false (by simp) ?_
      rw [hmass]; intro hge; linarith
  · refine ⟨iff_of_false (by simp) (by exact fun hlt => ht hlt), ?_, ?_, rfl,
      hlo, hhi, by linarith, by linarith⟩
    · refine iff_of_false (by simp) ?_
      rintro ⟨_, hlt⟩; rw [hmass] at hlt; exact hw hlt
    · refine iff_of_true rfl ?_
      rw [hmass]; linarith [not_lt.mp hw]

/-- C4 witness: the characterization at a concrete matchup and draw. -/
theorem simulate_match_outcome_spec_witness :
    ((0 : ℚ) ≤ 1/10 ∧ (1/10 : ℚ) < 1)
  ∧ ((simulate_match 400 450 (1/10)).1 = MatchOutcome.tie ↔ (1/10 : ℚ) < 3/20) :=
  ⟨⟨by norm_num, by norm_num⟩,
   (simulate_match_outcome_spec 400 450 (1/10) (by norm_num) (by norm_num)).1⟩

/-! ## The K-best ledger rule -/

lemma sortFinishesDesc_perm (l : List Int) : (sortFinishesDesc l).Perm l :=
  List.perm_insertionSort _ l

lemma sortFinishesDesc_sorted (l : List Int) :
    List.Sorted (fun a b : Int => b ≤ a) (sortFinishesDesc l) :=
  List.sorted_insertionSort _ l

lemma applyFinish_lt5 (row : LedgerRow) (newPoints : Int) (h : row.cpFinishes.length < 5) :
    applyFinish row newPoints = some { row with
      cpFinishes := sortFinishesDesc (row.cpFinishes ++ [newPoints]),
      topXCP := (sortFinishesDesc (row.cpFinishes ++ [newPoints])).sum,
      totalCP := (sortFinishesDesc (row.cpFinishes ++ [newPoints])).sum + row.localsCP } := by
  unfold applyFinish updateFinishes
  rw [if_pos h]

lemma applyFinish_replace (row : LedgerRow) {m : Int} (newPoints : Int)
    (h5 : ¬ row.cpFinishes.length < 5) (hm : row.cpFinishes.min? = some m)
    (hlt : m < newPoints) :
    applyFinish row newPoints = some { row with
      cpFinishes := sortFinishesDesc ((row.cpFinishes.erase m) ++ [newPoints]),
      topXCP := (sortFinishesDesc ((row.cpFinishes.erase m) ++ [newPoints])).sum,
      totalCP := (sortFinishesDesc ((row.cpFinishes.erase m) ++ [newPoints])).sum
        + row.localsCP } := by
  unfold applyFinish updateFinishes
  rw [if_neg h5, hm]
  dsimp only
  rw [if_pos hlt]

lemma applyFinish_reject (row : LedgerRow) {m : Int} (newPoints : Int)
    (h5 : ¬ row.cpFinishes.length < 5) (hm : row.cpFinishes.min? = some m)
    (hge : newPoints ≤ m) :
    applyFinish row newPoints = none := by
  unfold applyFinish updateFinishes
  rw [if_neg h5, hm]
  dsimp only
  rw [if_neg (not_lt.mpr hge)]

lemma update_player_finishes_append (pre rest : List LedgerRow) (playerName : String)
    (newPoints : Int) (hpre : ∀ row ∈ pre, nameMatches playerName row = false) :
    update_player_finishes (pre ++ rest) playerName newPoints
      = (pre ++ (update_player_finishes rest playerName newPoints).1,
         (update_player_finishes rest playerName newPoints).2) := by
  induction pre with
  | nil => simp
  | cons row pre2 ih =>
    have hrow := hpre row (by simp)
    have hpre2 : ∀ r2 ∈ pre2, nameMatches playerName r2 = false :=
      fun r2 hr2 => hpre r2 (by simp [hr2])
    simp [update_player_finishes, hrow, ih hpre2]

/-- C1: the K-best rule with K=5.  For the first standings row matching
the requested name: with fewer than 5 recorded finishes the new value is
merged in (the new finishes are a permutation of the old ones plus the
new value) and the call reports a change; with exactly 5 finishes and a
new value strictly above the minimum, one instance of the minimum is
replaced by the new value and the call reports a change; with exactly 5
finishes and a new value not above the minimum, the call reports no
change and the whole standings are left untouched.  After any change the
finishes are sorted descending, the Top-X sum equals the sum of the
finishes and the grand total equals that sum plus the row's flat locals
bonus; all other fields and rows are unchanged. -/
theorem update_player_finishes_kbest (pre post : List LedgerRow) (r : LedgerRow)
    (playerName : String) (newPoints : Int)
    (hpre : ∀ row ∈ pre, nameMatches playerName row = false)
    (hr : nameMatches playerName r = true) :
    (r.cpFinishes.length < 5 →
      ∃ r2 : LedgerRow,
        update_player_finishes (pre ++ r :: post) playerName newPoints
          = (pre ++ r2 :: post, true)
        ∧ r2.cpFinishes.Perm (newPoints :: r.cpFinishes)
        ∧ List.Sorted (fun a b : Int => b ≤ a) r2.cpFinishes
        ∧ r2.topXCP = r2.cpFinishes.sum
        ∧ r2.totalCP = r2.cpFinishes.sum + r.localsCP
        ∧ r2.localsCP = r.localsCP ∧ r2.naName = r.naName ∧ r2.topXName = r.topXName)
  ∧ (∀ m : Int, r.cpFinishes.length = 5 → r.cpFinishes.min? = some m → m < newPoints →
      ∃ r2 : LedgerRow,
        update_player_finishes (pre ++ r :: post) playerName newPoints
          = (pre ++ r2 :: post, true)
        ∧ r2.cpFinishes.Perm (newPoints :: r.cpFinishes.erase m)
        ∧ List.Sorted (fun a b : Int => b ≤ a) r2.cpFinishes
        ∧ r2.topXCP = r2.cpFinishes.sum
        ∧ r2.totalCP = r2.cpFinishes.sum + r.localsCP
        ∧ r2.localsCP = r.localsCP ∧ r2.naName = r.naName ∧ r2.topXName = r.topXName)
  ∧ (∀ m : Int, r.cpFinishes.length = 5 → r.cpFinishes.min? = some m → newPoints ≤ m →
      update_player_finishes (pre ++ r :: post) playerName newPoints
        = (pre ++ r :: post, false)) := by
  have hbase := update_player_finishes_append pre (r :: post) playerName newPoints hpre
  refine ⟨?_, ?_, ?_⟩
  · intro hlen
    have happ := applyFinish_lt5 r newPoints hlen
    have hhead : update_player_finishes (r :: post) playerName newPoints
        = ({ r with
              cpFinishes := sortFinishesDesc (r.cpFinishes ++ [newPoints]),
              topXCP := (sortFinishesDesc (r.cpFinishes ++ [newPoints])).sum,
              totalCP := (sortFinishesDesc (r.cpFinishes ++ [newPoints])).sum
                + r.localsCP } :: post, true) := by
      simp [update_player_finishes, hr, happ]
    refine ⟨{ r with
        cpFinishes := sortFinishesDesc (r.cpFinishes ++ [newPoints]),
        topXCP := (sortFinishesDesc (r.cpFinishes ++ [newPoints])).sum,
        totalCP := (sortFinishesDesc (r.cpFinishes ++ [newPoints])).sum + r.localsCP },
      by rw [hbase, hhead], ?_, sortFinishesDesc_sorted _, rfl, rfl, rfl, rfl, rfl⟩
    exact (sortFinishesDesc_perm _).trans (List.perm_append_singleton _ _)
  · intro m hlen hm hlt
    have happ := applyFinish_replace r newPoints (by omega) hm hlt
    have hhead : update_player_finishes (r :: post) playerName newPoints
        = ({ r with
              cpFinishes := sortFinishesDesc ((r.cpFinishes.erase m) ++ [newPoints]),
              topXCP := (sortFinishesDesc ((r.cpFinishes.erase m) ++ [newPoints])).sum,
              totalCP := (sortFinishesDesc ((r.cpFinishes.erase m) ++ [newPoints])).sum
                + r.localsCP } :: post, true) := by
      simp [update_player_finishes, hr, happ]
    refine ⟨{ r with
        cpFinishes := sortFinishesDesc ((r.cpFinishes.erase m) ++ [newPoints]),
        topXCP := (sortFinishesDesc ((r.cpFinishes.erase m) ++ [newPoints])).sum,
        totalCP := (sortFinishesDesc ((r.cpFinishes.erase m) ++ [newPoints])).sum
          + r.localsCP },
      by rw [hbase, hhead], ?_, sortFinishesDesc_sorted _, rfl, rfl, rfl, rfl, rfl⟩
    exact (sortFinishesDesc_perm _).trans (List.perm_append_singleton _ _)
  · intro m hlen hm hge
    have happ := applyFinish_reject r newPoints (by omega) hm hge
    have hhead : update_player_finishes (r :: post) playerName newPoints
        = (r :: post, false) := by
      simp [update_player_finishes, hr, happ]
    rw [hbase, hhead]

/-- C1 witness: the spec's own worked example [500,480,420,420,380] with
a new 400 finish replacing the 380. -/
theorem update_player_finishes_kbest_witness :
    (∀ row ∈ ([] : List LedgerRow), nameMatches "ann" row = false)
  ∧ nameMatches "ann" ⟨"Ann", "Ann B", [500, 480, 420, 420, 380], 10, 2200, 2210⟩ = true
  ∧ (([500, 480, 420, 420, 380] : List Int).length = 5
      ∧ ([500, 480, 420, 420, 380] : List Int).min? = some 380 ∧ (380 : Int) < 400)
  ∧ ∃ r2 : LedgerRow,
      update_player_finishes
          ([] ++ (⟨"Ann", "Ann B", [500, 480, 420, 420, 380], 10, 2200, 2210⟩ : LedgerRow) :: [])
          "ann" 400
        = ([] ++ r2 :: [], true)
      ∧ r2.cpFinishes.Perm
          (400 :: ([500, 480, 420, 420, 380] : List Int).erase 380)
      ∧ List.Sorted (fun a b : Int => b ≤ a) r2.cpFinishes
      ∧ r2.topXCP = r2.cpFinishes.sum
      ∧ r2.totalCP = r2.cpFinishes.sum + 10
      ∧ r2.localsCP = 10 ∧ r2.naName = "Ann" ∧ r2.topXName = "Ann B" :=
  ⟨by simp, by decide, ⟨by decide, by decide, by decide⟩,
   (update_player_finishes_kbest [] []
      ⟨"Ann", "Ann B", [500, 480, 420, 420, 380], 10, 2200, 2210⟩ "ann" 400
      (by simp) (by decide)).2.1 380 (by decide) (by decide) (by decide)⟩

/-! ## Round accounting invariant -/

lemma applyPairingResult_inv {st : Nat → PState}
    (h : ∀ j, (st j).matchPoints = 3 * (st j).wins + (st j).ties)
    (e : Pairing × MatchOutcome) :
    ∀ j, (applyPairingResult st e j).matchPoints
      = 3 * (applyPairingResult st e j).wins + (applyPairingResult st e j).ties := by
  intro j
  have hj := h j
  obtain ⟨pr, out⟩ := e
  cases pr with
  | bye p =>
    simp only [applyPairingResult, updateAt]
    split_ifs <;> (try simp only [applyWin]) <;> omega
  | vs p1 p2 =>
    cases out <;>
      (simp only [applyPairingResult, updateAt]
       split_ifs <;> (try simp only [applyWin, applyLoss, applyTie]) <;> omega)

lemma simulate_round_inv {st : Nat → PState}
    (h : ∀ j, (st j).matchPoints = 3 * (st j).wins + (st j).ties)
    (events : List (Pairing × MatchOutcome)) :
    ∀ j, (simulate_round st events j).matchPoints
      = 3 * (simulate_round st events j).wins + (simulate_round st events j).ties := by
  induction events generalizing st with
  | nil => exact h
  | cons e es ih => exact ih (applyPairingResult_inv h e)

lemma runRounds_inv {st : Nat → PState}
    (h : ∀ j, (st j).matchPoints = 3 * (st j).wins + (st j).ties)
    (rounds : List (List (Pairing × MatchOutcome))) :
    ∀ j, (runRounds st rounds j).matchPoints
      = 3 * (runRounds st rounds j).wins + (runRounds st rounds j).ties := by
  induction rounds generalizing st with
  | nil => exact h
  | cons events rs ih => exact ih (simulate_round_inv h events)

/-- C10: starting from the all-zero counters created by `load_players`,
after any sequence of simulated rounds every participant satisfies
`match_points = 3 * wins + 1 * ties`; moreover a win or bye adds exactly
3 match points and one win, a loss adds no match points and one loss,
and a tie adds exactly 1 match point and one tie, each leaving the other
counters unchanged. -/
theorem match_points_invariant (rounds : List (List (Pairing × MatchOutcome))) (i : Nat) :
    ((runRounds initState rounds i).matchPoints
      = 3 * (runRounds initState rounds i).wins + (runRounds initState rounds i).ties)
  ∧ (∀ s : PState, applyWin s = ⟨s.matchPoints + 3, s.wins + 1, s.losses, s.ties⟩)
  ∧ (∀ s : PState, applyLoss s = ⟨s.matchPoints, s.wins, s.losses + 1, s.ties⟩)
  ∧ (∀ s : PState, applyTie s = ⟨s.matchPoints + 1, s.wins, s.losses, s.ties + 1⟩) :=
  ⟨runRounds_inv (fun _ => rfl) rounds i, fun _ => rfl, fun _ => rfl, fun _ => rfl⟩

/-! ## Final placement assignment -/

lemma sortByStanding_perm (l : List TPlayer) : (sortByStanding l).Perm l :=
  List.perm_insertionSort _ l

lemma sortByStanding_sorted (l : List TPlayer) : List.Sorted rankRel (sortByStanding l) :=
  List.sorted_insertionSort _ l

lemma filter_active_partition (players : List TPlayer)
    (h : ∀ p ∈ players, p.isActive = true ↔ 19 ≤ p.matchPoints) :
    ((players.filter (fun p => p.isActive))
      ++ (players.filter (fun p => decide (p.matchPoints < 19)))).Perm players := by
  have hcongr : players.filter (fun p => decide (p.matchPoints < 19))
      = players.filter (fun p => !p.isActive) := by
    apply List.filter_congr
    intro p hp
    have hiff := h p hp
    cases hb : p.isActive with
    | true =>
      have h19 := hiff.mp hb
      simp only [Bool.not_true, decide_eq_false_iff_not, Nat.not_lt]
      exact h19
    | false =>
      have h19 : ¬ 19 ≤ p.matchPoints := fun hle => by
        rw [hiff.mpr hle] at hb; cases hb
      simp only [Bool.not_false, decide_eq_true_eq]
      omega
  rw [hcongr]
  exact List.filter_append_perm _ players

lemma pairs_perm (players : List TPlayer)
    (h : ∀ p ∈ players, p.isActive = true ↔ 19 ≤ p.matchPoints) :
    (day2Standings players ++ nonAdvancing players).Perm players :=
  (List.Perm.append (sortByStanding_perm _) (sortByStanding_perm _)).trans
    (filter_active_partition players h)

lemma assignPlacements_fst (players : List TPlayer) :
    (assignPlacements players).map Prod.fst
      = day2Standings players ++ nonAdvancing players := by
  unfold assignPlacements
  rw [List.map_map]
  exact List.enum_map_snd _

lemma assignPlacements_snd (players : List TPlayer) :
    (assignPlacements players).map Prod.snd
      = List.range' 1 (day2Standings players ++ nonAdvancing players).length := by
  unfold assignPlacements
  rw [List.map_map]
  have h1 : (Prod.snd ∘ fun ip : Nat × TPlayer => (ip.2, ip.1 + 1))
      = (fun i => i + 1) ∘ Prod.fst := rfl
  rw [h1, ← List.map_map, List.enum_map_fst, List.range'_eq_map_range]
  simp [Nat.add_comm]

lemma mem_day2Standings_active {players : List TPlayer} {p : TPlayer}
    (hp : p ∈ day2Standings players) : p.isActive = true := by
  have := (sortByStanding_perm (players.filter (fun q => q.isActive))).mem_iff.mp hp
  exact (List.mem_filter.mp this).2

lemma mem_nonAdvancing_inactive {players : List TPlayer} {p : TPlayer}
    (h : ∀ q ∈ players, q.isActive = true ↔ 19 ≤ q.matchPoints)
    (hp : p ∈ nonAdvancing players) : p.isActive = false := by
  have hmem := (sortByStanding_perm
    (players.filter (fun q => decide (q.matchPoints < 19)))).mem_iff.mp hp
  obtain ⟨hpl, hlt⟩ := List.mem_filter.mp hmem
  have hlt2 : p.matchPoints < 19 := of_decide_eq_true hlt
  cases hb : p.isActive with
  | true =>
    have := (h p hpl).mp hb
    omega
  | false => rfl

/-- C6: given the orchestrator's invariant that a participant is still
active exactly when it holds at least 19 match points, the final
placement assignment gives the N participants exactly the placements
1..N in order (hence a permutation with no duplicates or gaps), each
participant appearing exactly once; the active players are sorted by
match points then wins descending and occupy places 1..M, and the
non-advancing players are sorted by the same key and occupy places
M+1..N; placements are distinct even among participants tied on both
match points and wins. -/
theorem assignPlacements_spec (players : List TPlayer)
    (h : ∀ p ∈ players, p.isActive = true ↔ 19 ≤ p.matchPoints) :
    ((assignPlacements players).map Prod.snd = List.range' 1 players.length)
  ∧ ((assignPlacements players).map Prod.fst).Perm players
  ∧ List.Sorted rankRel (day2Standings players)
  ∧ List.Sorted rankRel (nonAdvancing players)
  ∧ (∀ pr ∈ assignPlacements players,
      (pr.1.isActive = true → 1 ≤ pr.2 ∧ pr.2 ≤ (day2Standings players).length)
      ∧ (pr.1.isActive = false →
          (day2Standings players).length < pr.2 ∧ pr.2 ≤ players.length)) := by
  have hlen : (day2Standings players ++ nonAdvancing players).length = players.length :=
    (pairs_perm players h).length_eq
  refine ⟨by rw [assignPlacements_snd, hlen], by rw [assignPlacements_fst]; exact pairs_perm players h,
    sortByStanding_sorted _, sortByStanding_sorted _, ?_⟩
  intro pr hpr
  obtain ⟨ip, hip, rfl⟩ := List.mem_map.mp hpr
  rw [List.enum_append] at hip
  rcases List.mem_append.mp hip with hip1 | hip2
  · have hlt := List.fst_lt_of_mem_enum hip1
    have hmem := List.snd_mem_of_mem_enum hip1
    have hact := mem_day2Standings_active hmem
    constructor
    · intro _
      exact ⟨by omega, by omega⟩
    · intro hfalse
      rw [hact] at hfalse
      cases hfalse
  · have hge := List.le_fst_of_mem_enumFrom hip2
    have hlt := List.fst_lt_add_of_mem_enumFrom hip2
    have hmem := List.snd_mem_of_mem_enumFrom hip2
    have hinact := mem_nonAdvancing_inactive h hmem
    have hsum : (day2Standings players).length + (nonAdvancing players).length
        = players.length := by
      rw [← hlen, List.length_append]
    constructor
    · intro htrue
      rw [hinact] at htrue
      cases htrue
    · intro _
      exact ⟨by omega, by omega⟩

/-! ## Swiss pairing invariants -/

lemma chooseOpp_mem (prior : Nat → Nat → Bool) (p q : Nat) (rest : List Nat) :
    chooseOpp prior p q rest ∈ q :: rest := by
  unfold chooseOpp
  cases hfind : (q :: rest).find? (fun r2 => !prior p r2) with
  | none => exact List.mem_cons_self q rest
  | some r2 => exact List.mem_of_find?_eq_some hfind

lemma pairBracket_spec (prior : Nat → Nat → Bool) :
    ∀ l : List Nat,
      ((pairBracket prior l).1.flatMap (fun pr => [pr.1, pr.2])
          ++ ((pairBracket prior l).2.toList)).Perm l
      ∧ 2 * (pairBracket prior l).1.length + (pairBracket prior l).2.toList.length
          = l.length
      ∧ (pairBracket prior l).2.toList.length = l.length % 2
  | [] => by simp [pairBracket]
  | [p] => by simp [pairBracket]
  | p :: q :: rest => by
    have hmem := chooseOpp_mem prior p q rest
    have hlen : ((q :: rest).erase (chooseOpp prior p q rest)).length = rest.length := by
      rw [List.length_erase_of_mem hmem]
      simp
    obtain ⟨ihperm, ihlen, ihpar⟩ :=
      pairBracket_spec prior ((q :: rest).erase (chooseOpp prior p q rest))
    rw [hlen] at ihlen ihpar
    have heq : pairBracket prior (p :: q :: rest)
        = ((p, chooseOpp prior p q rest)
            :: (pairBracket prior ((q :: rest).erase (chooseOpp prior p q rest))).1,
           (pairBracket prior ((q :: rest).erase (chooseOpp prior p q rest))).2) := by
      simp only [pairBracket]
    rw [heq]
    refine ⟨?_, by simp only [List.length_cons]; omega, by simp only [List.length_cons]; omega⟩
    simp only [List.flatMap_cons, List.cons_append, List.nil_append, List.append_assoc]
    exact List.Perm.cons p ((List.Perm.cons (chooseOpp prior p q rest)
      (by simpa using ihperm)).trans (List.perm_cons_erase hmem).symm)
termination_by l => l.length
decreasing_by
  simp only [List.length_cons]
  have h := List.length_erase_le (chooseOpp prior p q rest) (q :: rest)
  simp only [List.length_cons] at h
  omega

lemma pairLeftovers_players : ∀ l : List Nat, pairingPlayers (pairLeftovers l) = l
  | [] => rfl
  | [p] => rfl
  | p :: q :: rest => by
    have ih := pairLeftovers_players rest
    unfold pairingPlayers at ih ⊢
    simp only [pairLeftovers, List.flatMap_cons, Pairing.players, List.cons_append,
      List.nil_append]
    rw [ih]

lemma pairLeftovers_length : ∀ l : List Nat, (pairLeftovers l).length = (l.length + 1) / 2
  | [] => rfl
  | [p] => by simp [pairLeftovers]
  | p :: q :: rest => by
    have ih := pairLeftovers_length rest
    simp only [pairLeftovers, List.length_cons]
    omega

lemma pairLeftovers_byeCount : ∀ l : List Nat,
    (pairLeftovers l).countP (fun pr => pr.isBye) = l.length % 2
  | [] => rfl
  | [p] => by simp [pairLeftovers, List.countP_cons, Pairing.isBye]
  | p :: q :: rest => by
    have ih := pairLeftovers_byeCount rest
    have hvs : (Pairing.vs p q).isBye = false := rfl
    simp only [pairLeftovers, List.countP_cons, hvs, List.length_cons, Bool.false_eq_true,
      if_false]
    omega

lemma pairingPlayers_append (ps qs : List Pairing) :
    pairingPlayers (ps ++ qs) = pairingPlayers ps ++ pairingPlayers qs := by
  unfold pairingPlayers
  rw [List.flatMap_append]

lemma pairingPlayers_map_vs (prs : List (Nat × Nat)) :
    pairingPlayers (prs.map (fun pr => Pairing.vs pr.1 pr.2))
      = prs.flatMap (fun pr => [pr.1, pr.2]) := by
  unfold pairingPlayers
  rw [List.flatMap_map]
  rfl

lemma filterMap_snd_cons (x : List (Nat × Nat) × Option Nat)
    (xs : List (List (Nat × Nat) × Option Nat)) :
    List.filterMap Prod.snd (x :: xs) = x.2.toList ++ List.filterMap Prod.snd xs := by
  rcases x with ⟨prs, lo⟩
  cases lo <;> simp [List.filterMap_cons]

lemma swiss_brackets_spec (prior : Nat → Nat → Bool) (brackets : List (List Nat)) :
    (pairingPlayers ((brackets.map (pairBracket prior)).flatMap
        (fun r2 => r2.1.map (fun pr => Pairing.vs pr.1 pr.2)))
      ++ ((brackets.map (pairBracket prior)).filterMap Prod.snd)).Perm brackets.flatten
    ∧ 2 * ((brackets.map (pairBracket prior)).flatMap
        (fun r2 => r2.1.map (fun pr => Pairing.vs pr.1 pr.2))).length
        + ((brackets.map (pairBracket prior)).filterMap Prod.snd).length
      = brackets.flatten.length := by
  induction brackets with
  | nil => simp [pairingPlayers]
  | cons b bs ih =>
    obtain ⟨ihperm, ihlen⟩ := ih
    obtain ⟨hbperm, hblen, _⟩ := pairBracket_spec prior b
    constructor
    · simp only [List.map_cons, List.flatMap_cons, filterMap_snd_cons,
        pairingPlayers_append, List.flatten_cons, List.append_assoc]
      refine List.Perm.trans (List.Perm.append_left _ (List.perm_append_comm_assoc _ _ _)) ?_
      rw [← List.append_assoc]
      refine List.Perm.append ?_ ihperm
      rw [pairingPlayers_map_vs]
      exact hbperm
    · simp only [List.map_cons, List.flatMap_cons, filterMap_snd_cons, List.flatten_cons,
        List.length_append, List.length_map]
      omega

/-- C2: for a round paired from any point-bracket decomposition of the N
active players (brackets in descending point order, each in its shuffled
order, any prior-opponent relation), `generate_swiss_pairings` produces
exactly ceil(N/2) pairings; the players appearing in the pairings are a
permutation of the active players, and when the active players are
distinct each appears in exactly one pairing; the number of byes is
N mod 2, so there is at most one bye and a bye occurs exactly when N is
odd. -/
theorem generate_swiss_pairings_spec (prior : Nat → Nat → Bool)
    (brackets : List (List Nat)) (hnd : brackets.flatten.Nodup) :
    (generate_swiss_pairings prior brackets).length = (brackets.flatten.length + 1) / 2
  ∧ (pairingPlayers (generate_swiss_pairings prior brackets)).Perm brackets.flatten
  ∧ (∀ x ∈ brackets.flatten,
      (pairingPlayers (generate_swiss_pairings prior brackets)).count x = 1)
  ∧ (generate_swiss_pairings prior brackets).countP (fun pr => pr.isBye)
      = brackets.flatten.length % 2
  ∧ (generate_swiss_pairings prior brackets).countP (fun pr => pr.isBye) ≤ 1 := by
  obtain ⟨hperm, hlen⟩ := swiss_brackets_spec prior brackets
  have hgen : generate_swiss_pairings prior brackets
      = ((brackets.map (pairBracket prior)).flatMap
          (fun r2 => r2.1.map (fun pr => Pairing.vs pr.1 pr.2)))
        ++ pairLeftovers ((brackets.map (pairBracket prior)).filterMap Prod.snd) := by
    simp only [generate_swiss_pairings]
  have hplayers : pairingPlayers (generate_swiss_pairings prior brackets)
      = pairingPlayers ((brackets.map (pairBracket prior)).flatMap
          (fun r2 => r2.1.map (fun pr => Pairing.vs pr.1 pr.2)))
        ++ ((brackets.map (pairBracket prior)).filterMap Prod.snd) := by
    rw [hgen, pairingPlayers_append, pairLeftovers_players]
  have hperm2 : (pairingPlayers (generate_swiss_pairings prior brackets)).Perm
      brackets.flatten := by
    rw [hplayers]; exact hperm
  have hvs_nobye : ((brackets.map (pairBracket prior)).flatMap
      (fun r2 => r2.1.map (fun pr => Pairing.vs pr.1 pr.2))).countP
        (fun pr => pr.isBye) = 0 := by
    rw [List.countP_eq_zero]
    intro a ha
    obtain ⟨r2, _, hmem⟩ := List.mem_flatMap.mp ha
    obtain ⟨pr, _, rfl⟩ := List.mem_map.mp hmem
    simp [Pairing.isBye]
  refine ⟨?_, hperm2, ?_, ?_, ?_⟩
  · rw [hgen, List.length_append, pairLeftovers_length]
    omega
  · intro x hx
    rw [hperm2.count_eq]
    exact List.count_eq_one_of_mem hnd hx
  · rw [hgen, List.countP_append, hvs_nobye, pairLeftovers_byeCount]
    omega
  · rw [hgen, List.countP_append, hvs_nobye, pairLeftovers_byeCount]
    omega

/-- C2 witness: a concrete round with two brackets and five distinct
active players. -/
theorem generate_swiss_pairings_spec_witness :
    ([[1, 2, 3], [4, 5]] : List (List Nat)).flatten.Nodup
  ∧ (generate_swiss_pairings (fun _ _ => false) [[1, 2, 3], [4, 5]]).length
      = (([[1, 2, 3], [4, 5]] : List (List Nat)).flatten.length + 1) / 2
  ∧ (generate_swiss_pairings (fun _ _ => false) [[1, 2, 3], [4, 5]]).countP
      (fun pr => pr.isBye)
      = ([[1, 2, 3], [4, 5]] : List (List Nat)).flatten.length % 2 :=
  ⟨by decide,
   (generate_swiss_pairings_spec (fun _ _ => false) [[1, 2, 3], [4, 5]] (by decide)).1,
   (generate_swiss_pairings_spec (fun _ _ => false) [[1, 2, 3], [4, 5]]
      (by decide)).2.2.2.1⟩

/-- C6 witness: a concrete four-player standings table with a tie on
match points and wins. -/
theorem assignPlacements_spec_witness :
    (∀ p ∈ [TPlayer.mk 1 25 8 true, TPlayer.mk 2 10 3 false,
        TPlayer.mk 3 25 8 true, TPlayer.mk 4 12 4 false],
      p.isActive = true ↔ 19 ≤ p.matchPoints)
  ∧ ((assignPlacements [TPlayer.mk 1 25 8 true, TPlayer.mk 2 10 3 false,
        TPlayer.mk 3 25 8 true, TPlayer.mk 4 12 4 false]).map Prod.snd
      = List.range' 1 [TPlayer.mk 1 25 8 true, TPlayer.mk 2 10 3 false,
        TPlayer.mk 3 25 8 true, TPlayer.mk 4 12 4 false].length) :=
  ⟨by decide,
   (assignPlacements_spec [TPlayer.mk 1 25 8 true, TPlayer.mk 2 10 3 false,
      TPlayer.mk 3 25 8 true, TPlayer.mk 4 12 4 false] (by decide)).1⟩

end EventSim
